import Mathlib

/-!
Verification of the `rorycl/letters` email parsing package (Go) against its
natural-language specification.

The development shallowly embeds the parser core: the data model
(`ContentInfo`, `Headers`, `Email`, `File`), the traversal engine
(`Parse`, `parsePartList`, `parsePartBoundary`, `parseBody`), the text decode
post-processing (`parseText`) and the header field extractor
(`parseHeaders`).  Stateful Go code (the `stagedEmail` accumulator mutated
during traversal) becomes explicit state passing of an `Email` value;
fallible Go code (value/error pairs) becomes `Except Err`.

External collaborators are abstracted exactly at the boundary the spec
draws (spec section 1 and section 6):

* the transfer/charset decode pipeline `decoders.DecodeContent` is a
  function parameter `dc : ContentInfo → String → Except Err String`
  (its internals are Go stdlib / x-text readers);
* the header word decoder `decoders.DecodeHeader` is a function parameter
  `dh : String → Except Err String`; on failure Go returns the pair
  `("", err)`, which the embedding mirrors where the caller uses the
  value despite the error;
* `email.ExtractContentInfo` is abstracted by letting every message and
  every MIME part carry its already-extracted `ContentInfo`;
* the boundary-delimited part reader (`mime/multipart.Reader`) is modelled
  by the `Body` tree: `Body.parts` is the sibling list the declared
  boundary tokenizes the raw body into, `Body.data` is a body in which no
  boundary is found.  `multipart.Reader.NextPart` fails immediately on an
  empty boundary string (Go: "multipart: boundary is empty"), which the
  model reproduces in `parsePartBoundary`.

Go `string` values are Lean `String`; byte-level operations
(`bytes.ReplaceAll` on the two-byte pattern CRLF, `strings.TrimSpace`,
`strings.Split` on one-character separators) are given explicit
character-list models below.
-/

namespace Letters

/-- Errors of the parser, modelling Go `error` values: the two sentinel
errors of headers.go, the `UnknownContentTypeError` of parser.go, wrapped
errors produced by `fmt.Errorf("...: %w", err)`, and arbitrary other
errors (stdlib or injected functions) as `custom`. -/
inductive Err : Type where
  | emptyAddress : Err
  | emptyDate : Err
  | unknownContentType (contentType : String) : Err
  | custom (msg : String) : Err
  | wrap (ctx : String) (err : Err) : Err
deriving DecidableEq, Repr

deriving instance DecidableEq for Except

/-- Go `%q` of a string: quotes around the text.  This models `fmt.Sprintf`
verbatim for strings without characters needing escapes, which is the case
for media-type strings. -/
def goQuote (s : String) : String := "\"" ++ s ++ "\""

/-- Error message, modelling the `Error()` methods: `UnknownContentTypeError`
prints `unknown Content-Type %q`, a wrapped error prints the context, a
colon-space, then the wrapped message. -/
def Err.message : Err → String
  | .emptyAddress => "Empty Address"
  | .emptyDate => "Empty Date"
  | .unknownContentType t => "unknown Content-Type " ++ goQuote t
  | .custom m => m
  | .wrap c e => c ++ ": " ++ e.message

/-- Parameter list lookup modelling Go map indexing `m[k]` on
`map[string]string`: the zero value `""` when the key is absent. -/
def lookupParam (ps : List (String × String)) (k : String) : String :=
  match ps.lookup k with
  | some v => v
  | none => ""

/-- email.ContentInfo: the content metadata of one message or MIME part
(type, type parameters, disposition, disposition parameters, transfer
encoding, charset).  The lazily-loaded `Encoding` field is not modelled:
it only feeds the abstracted decode pipeline. -/
structure ContentInfo : Type where
  type : String
  typeParams : List (String × String)
  disposition : String
  dispositionParams : List (String × String)
  transferEncoding : String
  charset : String
deriving DecidableEq, Repr

/-- The empty `ContentInfo` (Go zero value). -/
def ContentInfo.empty : ContentInfo :=
  { type := "", typeParams := [], disposition := "", dispositionParams := []
    transferEncoding := "", charset := "" }

/-- mail.Address: a parsed email address. -/
structure Address : Type where
  name : String
  address : String
deriving DecidableEq, Repr

/-- Model of Go `time.Time` (claims never inspect dates; only zero vs
parsed matters). -/
abbrev Time := Int

/-- email.File: one extracted inline or attached file. -/
structure File : Type where
  fileType : String
  name : String
  contentInfo : ContentInfo
  data : String
deriving DecidableEq, Repr

/-- email.Headers: the header record.  Field layout follows the struct
used by headers.go; `extraHeaders` keeps insertion order where Go uses a
map. -/
structure Headers : Type where
  date : Time
  sender : Option Address
  fromAddresses : List Address
  replyTo : List Address
  toAddresses : List Address
  cc : List Address
  bcc : List Address
  messageID : String
  inReplyTo : List String
  references : List String
  subject : String
  comments : String
  keywords : List String
  resentDate : Time
  resentFrom : List Address
  resentSender : Option Address
  resentTo : List Address
  resentCc : List Address
  resentBcc : List Address
  resentMessageID : String
  received : List String
  extraHeaders : List (String × List String)
  contentInfo : ContentInfo
deriving DecidableEq, Repr

/-- The zero-valued header record (Go zero value of email.Headers). -/
def Headers.empty : Headers :=
  { date := 0, sender := none, fromAddresses := [], replyTo := []
    toAddresses := [], cc := [], bcc := [], messageID := "", inReplyTo := [], references := []
    subject := "", comments := "", keywords := [], resentDate := 0
    resentFrom := [], resentSender := none, resentTo := [], resentCc := []
    resentBcc := [], resentMessageID := "", received := [], extraHeaders := []
    contentInfo := ContentInfo.empty }

/-- email.Email: the output document. -/
structure Email : Type where
  headers : Headers
  text : String
  enrichedText : String
  html : String
  files : List File
deriving DecidableEq, Repr

/-- The empty output document, as initialised by `newStagedEmail`. -/
def Email.empty : Email :=
  { headers := Headers.empty, text := "", enrichedText := "", html := ""
    files := [] }

/-- The three processing modes of parser.go. -/
inductive TypeOfProcessing : Type where
  | wholeEmail : TypeOfProcessing
  | headersOnly : TypeOfProcessing
  | noAttachments : TypeOfProcessing
deriving DecidableEq, Repr

/-- parser.Parser: processing mode, skip-list and the injected functions
(spec section 6).  `fileFunc` receives the file with its decoded payload
already buffered in `data` and returns the finished file (the Go default
reads the decoded reader into `File.Data`). -/
structure Parser : Type where
  processType : TypeOfProcessing
  skipContentTypes : List String
  addressFunc : String → Except Err Address
  addressesFunc : String → Except Err (List Address)
  dateFunc : String → Except Err Time
  fileFunc : File → Except Err File

/-- Modelled from the spec: `Parser.inSkipContentTypes` lives in opts.go,
which is not under src/; the spec (section 6) describes the skip-list as a
"content-type skip-list (set of exact-match strings)", so membership is
exact string membership. -/
def Parser.inSkipContentTypes (p : Parser) (t : String) : Bool :=
  p.skipContentTypes.contains t

/-- Model of Go `strings.HasPrefix` over the character list (Lean's
`String.startsWith` is extensionally the same but does not reduce in the
kernel). -/
def hasPrefixStr (s pre : String) : Bool := pre.toList.isPrefixOf s.toList

/-- Modelled from the spec: `ContentInfo.IsInlineFile` lives in the email
package, which is not under src/.  Spec section 4.2: inline means "no
attachment disposition, but binary/non-text type and has a name or inline
disposition". -/
def ContentInfo.IsInlineFile (ci : ContentInfo) : Bool :=
  ci.disposition ≠ "attachment" && !hasPrefixStr ci.type "text/" &&
    (lookupParam ci.typeParams "name" ≠ "" || ci.disposition = "inline")

/-- Modelled from the spec: `ContentInfo.IsAttachedFile` lives in the email
package, which is not under src/.  Spec section 4.2: an "attached" binary
type "by disposition or heuristic" (a non-text, non-multipart type). -/
def ContentInfo.IsAttachedFile (ci : ContentInfo) : Bool :=
  ci.disposition = "attachment" ||
    (!hasPrefixStr ci.type "text/" && !hasPrefixStr ci.type "multipart")

/-- Characters trimmed by Go `strings.TrimSpace` (ASCII fragment; the
claims never exercise the further Unicode white space code points). -/
def isSpaceChar (c : Char) : Bool :=
  c = ' ' || c = '\t' || c = '\n' || c = '\r' || c = '\x0b' || c = '\x0c'

/-- Model of `strings.TrimSpace`. -/
def trimSpace (s : String) : String :=
  String.mk (((s.toList.dropWhile isSpaceChar).reverse.dropWhile
    isSpaceChar).reverse)

/-- Model of `strings.Trim(s, cutset)` for a character-set cutset. -/
def trimCutset (cut : List Char) (s : String) : String :=
  String.mk (((s.toList.dropWhile cut.contains).reverse.dropWhile
    cut.contains).reverse)

/-- Character-list worker for `bytes.ReplaceAll(b, CRLF, LF)`: the
two-byte pattern cannot overlap itself, so left-to-right single-pass
replacement is the stdlib behaviour. -/
def crlfToLfChars : List Char → List Char
  | [] => []
  | '\r' :: '\n' :: rest => '\n' :: crlfToLfChars rest
  | c :: rest => c :: crlfToLfChars rest

/-- Model of `bytes.ReplaceAll(textBody, "\r\n", "\n")` from parseText. -/
def crlfToLf (s : String) : String := String.mk (crlfToLfChars s.toList)

/-- Character-list worker modelling `strings.Split` with a one-character
separator (Go returns `[""]` on empty input). -/
def splitChars (c : Char) : List Char → List (List Char)
  | [] => [[]]
  | x :: rest =>
    match splitChars c rest with
    | [] => [[]]
    | g :: gs => if x = c then [] :: g :: gs else (x :: g) :: gs

/-- Model of `strings.Split(s, sep)` for a one-character separator. -/
def splitStr (c : Char) (s : String) : List String :=
  (splitChars c s.toList).map String.mk

mutual

/-- The body of a message or MIME part, with the external boundary
tokenizer applied (spec section 1 lists raw tokenization as an assumed
primitive): `data` is a body in which the part reader finds no boundary
(Go `multipart.Reader.NextPart` then yields `io.EOF` at once), `parts` is
the sibling sequence the declared boundary delimits; each sibling carries
the `ContentInfo` extracted from its part header (abstracting
`email.ExtractContentInfo`). -/
inductive Body : Type where
  | data (s : String) : Body
  | parts (children : PartsSeq) : Body

/-- A sequence of sibling MIME parts, each a `ContentInfo` plus a body. -/
inductive PartsSeq : Type where
  | nil : PartsSeq
  | cons (ci : ContentInfo) (b : Body) (rest : PartsSeq) : PartsSeq

end

/-- Build a sibling sequence from a list of pairs. -/
def PartsSeq.ofList : List (ContentInfo × Body) → PartsSeq
  | [] => .nil
  | (ci, b) :: rest => .cons ci b (PartsSeq.ofList rest)

/-- Raw byte content of a body, for the leaf readers (`parseText`,
`parseFile` consume the part's byte stream; a structured multipart body is
never handed to them by the claims below). -/
def Body.rawData : Body → String
  | .data s => s
  | .parts _ => ""

section Engine

variable (dc : ContentInfo → String → Except Err String)

/-- parseText (parser/body.go): decode the content, then replace CRLF with
LF and trim surrounding whitespace.  A failed read of the decoded stream is
wrapped as in `io.ReadAll` error handling of the source. -/
def parseText (ci : ContentInfo) (s : String) : Except Err String :=
  match dc ci s with
  | .error e => .error (.wrap "cannot read plain text content" e)
  | .ok t => .ok (trimSpace (crlfToLf t))

/-- Modelled from the spec: `parseFile` lives in file.go, which is not
under src/.  Spec sections 4.3 and 6: the file name comes from the
disposition `filename` parameter, falling back to the content-type `name`
parameter; the part body reader (decoded) and the populated `ContentInfo`
are handed to the injected file handler, whose default buffers the payload
into the file's data; the finished file is appended to the output file
list.  The file type tag is `attachment` for attachment disposition and
`inline` otherwise (spec section 3 output document). -/
def parseFile (p : Parser) (ci : ContentInfo) (s : String) (em : Email) :
    Except Err Email :=
  match dc ci s with
  | .error e => .error e
  | .ok d =>
    let fn := lookupParam ci.dispositionParams "filename"
    let f : File :=
      { fileType := if ci.disposition = "attachment" then "attachment" else "inline"
        name := if fn ≠ "" then fn else lookupParam ci.typeParams "name"
        contentInfo := ci, data := d }
    match p.fileFunc f with
    | .error e => .error e
    | .ok fDone => .ok { em with files := em.files ++ [fDone] }

/-- parseBody (parser/body.go): root text dispatch on the three text
content types; any other type is the "parse body content type not known"
error. -/
def parseBody (ci : ContentInfo) (s : String) (em : Email) :
    Except Err Email :=
  if ci.type = "text/plain" then
    match parseText dc ci s with
    | .error e => .error (.wrap "cannot parse plain text" e)
    | .ok t => .ok { em with text := t }
  else if ci.type = "text/enriched" then
    match parseText dc ci s with
    | .error e => .error (.wrap "cannot parse enriched text" e)
    | .ok t => .ok { em with enrichedText := t }
  else if ci.type = "text/html" then
    match parseText dc ci s with
    | .error e => .error (.wrap "cannot parse html text" e)
    | .ok t => .ok { em with html := t }
  else
    .error (.custom ("parse body content type " ++ goQuote ci.type ++
      " not known"))

mutual

/-- parsePart (staged.go), the loop over sibling parts delivered by the
multipart reader.  Branch order follows the source exactly: skip-list,
attachment disposition, the three text types (plain text with the
blank-line separator rule), nested multipart recursion, inline file and
attached file (both gated on the `wholeEmail` processing mode), the fixed
text/calendar allow-list, and the unknown content type error. -/
def parsePartList (p : Parser) (children : PartsSeq) (em : Email) :
    Except Err Email :=
  match children with
  | .nil => .ok em
  | .cons ci b rest =>
    if p.inSkipContentTypes ci.type then
      parsePartList p rest em
    else if ci.disposition = "attachment" then
      match parseFile dc p ci b.rawData em with
      | .error e => .error (.wrap "cannot parse attached file" e)
      | .ok em' => parsePartList p rest em'
    else if ci.type = "text/plain" then
      match parseText dc ci b.rawData with
      | .error e => .error (.wrap "cannot parse plain text" e)
      | .ok t =>
        parsePartList p rest
          { em with text :=
              if 0 < em.text.length then em.text ++ "\n\n" ++ t
              else em.text ++ t }
    else if ci.type = "text/enriched" then
      match parseText dc ci b.rawData with
      | .error e => .error (.wrap "cannot parse enriched text" e)
      | .ok t => parsePartList p rest { em with enrichedText := em.enrichedText ++ t }
    else if ci.type = "text/html" then
      match parseText dc ci b.rawData with
      | .error e => .error (.wrap "cannot parse html text" e)
      | .ok t => parsePartList p rest { em with html := em.html ++ t }
    else if hasPrefixStr ci.type "multipart" then
      match parsePartBoundary p (lookupParam ci.typeParams "boundary") b em with
      | .error e => .error (.wrap "cannot parse nested part" e)
      | .ok em' => parsePartList p rest em'
    else if ci.IsInlineFile then
      if p.processType ≠ .wholeEmail then parsePartList p rest em
      else
        match parseFile dc p ci b.rawData em with
        | .error e => .error (.wrap "cannot parse inline file" e)
        | .ok em' => parsePartList p rest em'
    else if ci.IsAttachedFile then
      if p.processType ≠ .wholeEmail then parsePartList p rest em
      else
        match parseFile dc p ci b.rawData em with
        | .error e => .error (.wrap "cannot parse attached file" e)
        | .ok em' => parsePartList p rest em'
    else if ci.type = "text/calendar" then
      parsePartList p rest em
    else
      .error (.unknownContentType ci.type)

/-- The boundary-delimited reading of one multipart body (the
`multipart.NewReader` + `NextPart` loop entry of parsePart): with an empty
boundary string — a declared multipart type with a missing `boundary`
parameter, since Go map indexing yields `""` — the stdlib reader fails on
the first `NextPart` with "multipart: boundary is empty", wrapped by the
source as "cannot read part"; with no boundary found in the raw bytes the
loop ends at once with no parts. -/
def parsePartBoundary (p : Parser) (boundary : String) (b : Body)
    (em : Email) : Except Err Email :=
  if boundary = "" then
    .error (.wrap "cannot read part" (.custom "multipart: boundary is empty"))
  else
    match b with
    | .data _ => .ok em
    | .parts children => parsePartList p children em

end

end Engine

/-- The explicit headers of headers.go, stored in their own fields of
email.Headers rather than in ExtraHeaders. -/
def explicitHeaders : List String :=
  ["Date", "Sender", "From", "Reply-To", "To", "Cc", "Bcc", "Message-Id",
   "In-Reply-To", "References", "Received", "Subject", "Comments",
   "Keywords", "Resent-Date", "Resent-From", "Resent-Sender", "Resent-To",
   "Resent-Cc", "Resent-Bcc", "Resent-Message-Id",
   "Content-Transfer-Encoding", "Content-Type", "Content-Disposition"]

/-- isExplicitHeader (headers.go): linear membership scan. -/
def isExplicitHeader (s : String) : Bool := explicitHeaders.contains s

/-- The raw header mapping produced by `mail.ReadMessage` (spec section 6:
name to ordered value list, duplicates preserved).  Keys are in canonical
MIME form as `net/textproto` stores them. -/
abbrev HeaderMap := List (String × List String)

/-- net/mail.Header.Get: first value of the field, `""` when absent.  The
canonicalisation Go applies to the argument is reflected by writing all
`get` calls below with the canonical key spelling (so the source's
`get("Message-ID")` appears as the canonical "Message-Id"). -/
def getH (hm : HeaderMap) (k : String) : String :=
  match hm.lookup k with
  | some vs => vs.headD ""
  | none => ""

/-- Direct map indexing `se.msg.Header[field]` (getAll of headers.go). -/
def getAllH (hm : HeaderMap) (k : String) : List String :=
  match hm.lookup k with
  | some vs => vs
  | none => []

/-- idTrimCutset (headers.go): characters trimmed around a message ID. -/
def idTrimCutset : List Char := ['<', '>', ' ', '\n']

/-- getID (headers.go): a cleaned message id. -/
def getID (s : String) : String := trimCutset idTrimCutset s

/-- getIDs (headers.go): split on spaces, trim each id, drop empties. -/
def getIDs (s : String) : List String :=
  ((splitStr ' ' s).map (fun id => trimSpace (trimCutset idTrimCutset id))
    ).filter (fun id => id ≠ "")

/-- getCSV (headers.go): comma-separated parts, trimmed, non-empty. -/
def getCSV (s : String) : List String :=
  ((splitStr ',' s).map trimSpace).filter (fun pp => 0 < pp.length)

section HeaderExtractor

variable (dh : String → Except Err String)

/-- parseAddresses (headers.go): the empty string is the sentinel
`errorEmptyAddress`; otherwise the header-word-decoded value goes to the
injected address-list function. -/
def parseAddresses (p : Parser) (s : String) : Except Err (List Address) :=
  if s = "" then .error .emptyAddress
  else
    match dh s with
    | .error e => .error (.wrap ("cannot decode address " ++ goQuote s) e)
    | .ok d => p.addressesFunc d

/-- parseAddress (headers.go): single-address variant. -/
def parseAddress (p : Parser) (s : String) : Except Err Address :=
  if s = "" then .error .emptyAddress
  else
    match dh s with
    | .error e => .error (.wrap ("cannot decode address " ++ goQuote s) e)
    | .ok d => p.addressFunc d

/-- The address-list field pattern of parseHeaders: the sentinel
`errorEmptyAddress` (compared by identity, as the source's
`errors.Is(errorEmptyAddress, err)` does for this unwrappable sentinel)
leaves the field at its zero value; any other error returns, wrapped with
the field name and raw value per `fmt.Errorf("%s header: (%s) %w", ...)`. -/
def addrsField (field raw : String) (res : Except Err (List Address)) :
    Except Err (List Address) :=
  match res with
  | .ok l => .ok l
  | .error .emptyAddress => .ok []
  | .error e => .error (.wrap (field ++ " header: (" ++ raw ++ ")") e)

/-- The single-address field pattern of parseHeaders, with the wrap
context supplied verbatim (Sender and Resent-Sender use different error
formats in the source). -/
def optAddrField (ctx : String) (res : Except Err Address) :
    Except Err (Option Address) :=
  match res with
  | .ok a => .ok (some a)
  | .error .emptyAddress => .ok none
  | .error e => .error (.wrap ctx e)

/-- callDateFunc (headers.go): empty dates yield the sentinel
`errorEmptyDate`, otherwise the injected date function runs. -/
def callDateFunc (p : Parser) (s : String) : Except Err Time :=
  if s = "" then .error .emptyDate else p.dateFunc s

/-- The date field pattern of parseHeaders: the sentinel `errorEmptyDate`
leaves the zero time; other errors return wrapped with field and value. -/
def dateField (field raw : String) (res : Except Err Time) :
    Except Err Time :=
  match res with
  | .ok t => .ok t
  | .error .emptyDate => .ok 0
  | .error e => .error (.wrap (field ++ " header: (" ++ raw ++ ")") e)

/-- getDecodedString (headers.go): decode and trim a string header. -/
def getDecodedString (s : String) : Except Err String := dh (trimSpace s)

/-- The decoded-string field pattern of parseHeaders (Subject, Comments):
a decode error returns wrapped with field and raw value. -/
def decodedField (field raw : String) (res : Except Err String) :
    Except Err String :=
  match res with
  | .ok s => .ok s
  | .error e => .error (.wrap (field ++ " header: (" ++ raw ++ ")") e)

/-- One extra-header value: the source's `val, _ := decoders.DecodeHeader(val)`
discards the error and keeps the returned string, which is `""` on the
decoder's error path. -/
def decodeExtra (v : String) : String :=
  match dh v with
  | .ok d => d
  | .error _ => ""

/-- The ExtraHeaders loop of parseHeaders: every non-explicit header key
keeps its decoded values (decode failures silently become `""`). -/
def extraHeadersOf (hm : HeaderMap) : List (String × List String) :=
  (hm.filter (fun kv => !isExplicitHeader kv.1)).map
    (fun kv => (kv.1, kv.2.map (decodeExtra dh)))

/-- parseHeaders (headers.go): populate the header record from the raw
header mapping, in source order — ExtraHeaders loop, Sender, From,
Reply-To, To, Cc, Bcc, Resent-From, Resent-Sender, Resent-To, Resent-Cc,
Resent-Bcc, Date, Resent-Date, Subject, Comments, then the
non-fallible id/keyword fields. -/
def parseHeaders (p : Parser) (hm : HeaderMap) (ci : ContentInfo) :
    Except Err Headers := do
  let extra := extraHeadersOf dh hm
  let sender ← optAddrField "cannot parse Sender header"
    (parseAddress dh p (getH hm "Sender"))
  let fromA ← addrsField "From" (getH hm "From")
    (parseAddresses dh p (getH hm "From"))
  let replyTo ← addrsField "Reply-To" (getH hm "Reply-To")
    (parseAddresses dh p (getH hm "Reply-To"))
  let toA ← addrsField "To" (getH hm "To")
    (parseAddresses dh p (getH hm "To"))
  let cc ← addrsField "Cc" (getH hm "Cc")
    (parseAddresses dh p (getH hm "Cc"))
  let bcc ← addrsField "Bcc" (getH hm "Bcc")
    (parseAddresses dh p (getH hm "Bcc"))
  let resentFrom ← addrsField "Resent-From" (getH hm "Resent-From")
    (parseAddresses dh p (getH hm "Resent-From"))
  let resentSender ←
    optAddrField ("Resent-Sender header: (" ++ getH hm "Resent-Sender" ++ ")")
      (parseAddress dh p (getH hm "Resent-Sender"))
  let resentTo ← addrsField "Resent-To" (getH hm "Resent-To")
    (parseAddresses dh p (getH hm "Resent-To"))
  let resentCc ← addrsField "Resent-Cc" (getH hm "Resent-Cc")
    (parseAddresses dh p (getH hm "Resent-Cc"))
  let resentBcc ← addrsField "Resent-Bcc" (getH hm "Resent-Bcc")
    (parseAddresses dh p (getH hm "Resent-Bcc"))
  let date ← dateField "Date" (getH hm "Date")
    (callDateFunc p (getH hm "Date"))
  let resentDate ← dateField "Resent-Date" (getH hm "Resent-Date")
    (callDateFunc p (getH hm "Resent-Date"))
  let subject ← decodedField "Subject" (getH hm "Subject")
    (getDecodedString dh (getH hm "Subject"))
  let comments ← decodedField "Comments" (getH hm "Comments")
    (getDecodedString dh (getH hm "Comments"))
  .ok { date := date, sender := sender, fromAddresses := fromA
        replyTo := replyTo, toAddresses := toA, cc := cc, bcc := bcc
        messageID := getID (getH hm "Message-Id")
        inReplyTo := getIDs (getH hm "In-Reply-To")
        references := getIDs (getH hm "References")
        subject := subject, comments := comments
        keywords := getCSV (getH hm "Keywords")
        resentDate := resentDate, resentFrom := resentFrom
        resentSender := resentSender, resentTo := resentTo
        resentCc := resentCc, resentBcc := resentBcc
        resentMessageID := getID (getH hm "Resent-Message-Id")
        received := getAllH hm "Received"
        extraHeaders := extra, contentInfo := ci }

end HeaderExtractor

/-- A raw message after `mail.ReadMessage` and root
`email.ExtractContentInfo` (both external at the spec boundary): the
header mapping, the root content info, and the body. -/
structure Message : Type where
  headers : HeaderMap
  rootCI : ContentInfo
  body : Body

section ParseMain

variable (dc : ContentInfo → String → Except Err String)
variable (dh : String → Except Err String)

/-- Parse (parser.go): parse headers, return at once for `headersOnly`,
then dispatch on the root content type — the three text types to
parseBody, `multipart/` prefixes to parsePart with the root boundary
parameter, anything else as a single top-level attachment via parseFile. -/
def Parse (p : Parser) (m : Message) : Except Err Email :=
  match parseHeaders dh p m.headers m.rootCI with
  | .error e => .error (.wrap "cannot parse headers" e)
  | .ok h =>
    let em : Email := { Email.empty with headers := h }
    if p.processType = .headersOnly then .ok em
    else if m.rootCI.type = "text/plain" ∨ m.rootCI.type = "text/enriched" ∨
        m.rootCI.type = "text/html" then
      parseBody dc m.rootCI m.body.rawData em
    else if hasPrefixStr m.rootCI.type "multipart/" then
      parsePartBoundary dc p (lookupParam m.rootCI.typeParams "boundary")
        m.body em
    else
      parseFile dc p m.rootCI m.body.rawData em

end ParseMain

/-- Spec-side definition: a list of texts "joined by exactly one blank
line between consecutive parts" (spec section 8), for comparison with the
parser's accumulation rule. -/
def joinBlank : List String → String
  | [] => ""
  | [t] => t
  | t :: u :: ts => t ++ "\n\n" ++ joinBlank (u :: ts)

/-- The text accumulation step of parsePart for sibling text/plain parts:
a blank-line separator is inserted only when text has already
accumulated. -/
def textAccumStep (acc t : String) : String :=
  if 0 < acc.length then acc ++ "\n\n" ++ t else acc ++ t

/-- Identity decode pipeline: `decoders.DecodeContent` for a part whose
transfer encoding is neither base64 nor quoted-printable and whose
charset lookup finds no encoding (both default branches of decoders.go
return the reader unchanged). -/
def dcId : ContentInfo → String → Except Err String := fun _ s => .ok s

/-- A decode pipeline failing on every read, for exercising malformed
part contents. -/
def dcFail : ContentInfo → String → Except Err String :=
  fun _ _ => .error (.custom "illegal base64 data")

/-- Identity header-word decoder: `decoders.DecodeHeader` on plain ASCII
values without encoded words returns its input unchanged. -/
def dhOk : String → Except Err String := fun s => .ok s

/-- A header-word decoder failing on one specific raw value, returning
`""` together with the error as decoders.go does. -/
def dhFailOn (bad : String) : String → Except Err String :=
  fun s =>
    if s = bad then .error (.custom "cannot decode MIME-word-encoded header")
    else .ok s

/-- A parser instance with the given mode and skip-list and benign
injected functions (the default-like behaviours the claims need). -/
def mkParser (t : TypeOfProcessing) (skips : List String) : Parser :=
  { processType := t, skipContentTypes := skips
    addressFunc := fun s => .ok { name := "", address := s }
    addressesFunc := fun s => .ok [{ name := "", address := s }]
    dateFunc := fun _ => .ok 1
    fileFunc := fun f => .ok f }

/-- Content info of a plain text part with no declared transfer encoding
or charset. -/
def plainCI : ContentInfo :=
  { type := "text/plain", typeParams := [], disposition := ""
    dispositionParams := [], transferEncoding := "", charset := "" }

/-- Content info of a pdf part with attachment disposition. -/
def attachPdfCI : ContentInfo :=
  { type := "application/pdf", typeParams := [("name", "a-name.pdf")]
    disposition := "attachment"
    dispositionParams := [("filename", "attached.pdf")]
    transferEncoding := "", charset := "" }

/-- Content info of a multipart/mixed root with a declared boundary. -/
def mixedRootCI : ContentInfo :=
  { type := "multipart/mixed", typeParams := [("boundary", "MixedBoundary")]
    disposition := "", dispositionParams := [], transferEncoding := ""
    charset := "" }

/-- Content info of a multipart/mixed part without a boundary parameter. -/
def mixedNoBoundaryCI : ContentInfo :=
  { type := "multipart/mixed", typeParams := [("charset", "utf-8")]
    disposition := "", dispositionParams := [], transferEncoding := ""
    charset := "utf-8" }

/-- A parser whose injected address-list function always fails, as
net/mail.ParseAddressList does on malformed input. -/
def pBadAddresses : Parser :=
  { mkParser .wholeEmail [] with
      addressesFunc := fun _ => .error (.custom "mail: no angle-addr") }

section Lemmas

variable {dc : ContentInfo → String → Except Err String}
variable {dh : String → Except Err String}
variable {p : Parser}

/-- Unfolding lemma: the skip-list branch of parsePart drops the part. -/
theorem parsePartList_skip {ci : ContentInfo} {b : Body} {rest : PartsSeq}
    {em : Email} (h : p.inSkipContentTypes ci.type = true) :
    parsePartList dc p (.cons ci b rest) em = parsePartList dc p rest em := by
  simp only [parsePartList, h, if_true]

/-- Unfolding lemma: the text/plain branch of parsePart under a successful
decode appends the decoded text with the separator rule. -/
theorem parsePartList_plain {ci : ContentInfo} {b : Body} {rest : PartsSeq}
    {em : Email} {t : String}
    (hskip : p.inSkipContentTypes ci.type = false)
    (hdisp : ci.disposition ≠ "attachment")
    (htype : ci.type = "text/plain")
    (hdec : dc ci b.rawData = .ok t) :
    parsePartList dc p (.cons ci b rest) em =
      parsePartList dc p rest
        { em with text := textAccumStep em.text (trimSpace (crlfToLf t)) } := by
  simp only [parsePartList, hskip, Bool.false_eq_true, if_false]
  rw [if_neg hdisp, if_pos htype]
  simp only [parseText, hdec, textAccumStep]

end Lemmas

/-- C5: for every multipart message and every child part whose content
type is in the configured skip-list, parsePart adds nothing for that part
or its descendants to the output text fields or file list and returns no
error on its account — processing the sibling list with the part present
equals processing it with the part removed, whatever the part's body or
decodability. -/
theorem c5_skip_list_part_contributes_nothing
    (dc : ContentInfo → String → Except Err String) (p : Parser)
    (ci : ContentInfo) (b : Body) (rest : PartsSeq) (em : Email)
    (h : p.inSkipContentTypes ci.type = true) :
    parsePartList dc p (.cons ci b rest) em = parsePartList dc p rest em :=
  parsePartList_skip h

/-- Witness for C5: a skip-listed attachment part whose decode would fail
is dropped without error or output. -/
theorem c5_skip_list_part_contributes_nothing_witness :
    (mkParser .wholeEmail ["application/pdf"]).inSkipContentTypes
      attachPdfCI.type = true ∧
    parsePartList dcFail (mkParser .wholeEmail ["application/pdf"])
      (.cons attachPdfCI (.data "broken-payload") .nil) Email.empty =
      .ok Email.empty :=
  ⟨rfl,
    (c5_skip_list_part_contributes_nothing dcFail
      (mkParser .wholeEmail ["application/pdf"]) attachPdfCI
      (.data "broken-payload") .nil Email.empty rfl).trans rfl⟩

/-- C6: a part (root or nested) whose content type starts with multipart/
but whose type parameters carry no boundary parameter (Go map indexing
then yields the empty string) makes parsing fail with the framing error of
the stdlib part reader, wrapped by parsePart, instead of succeeding with
an empty recursion. -/
theorem c6_missing_boundary_is_fatal :
    (∀ (dc : ContentInfo → String → Except Err String)
       (dh : String → Except Err String) (p : Parser) (hm : HeaderMap)
       (ci : ContentInfo) (b : Body) (h : Headers),
      parseHeaders dh p hm ci = .ok h →
      p.processType ≠ .headersOnly →
      hasPrefixStr ci.type "multipart/" = true →
      lookupParam ci.typeParams "boundary" = "" →
      Parse dc dh p ⟨hm, ci, b⟩ =
        .error (.wrap "cannot read part"
          (.custom "multipart: boundary is empty"))) ∧
    (∀ (dc : ContentInfo → String → Except Err String) (p : Parser)
       (ci : ContentInfo) (b : Body) (rest : PartsSeq) (em : Email),
      p.inSkipContentTypes ci.type = false →
      ci.disposition ≠ "attachment" →
      hasPrefixStr ci.type "multipart" = true →
      lookupParam ci.typeParams "boundary" = "" →
      parsePartList dc p (.cons ci b rest) em =
        .error (.wrap "cannot parse nested part"
          (.wrap "cannot read part"
            (.custom "multipart: boundary is empty")))) := by
  constructor
  · intro dc dh p hm ci b h hh hmode hpre hbound
    have h1 : ¬ (ci.type = "text/plain" ∨ ci.type = "text/enriched" ∨
        ci.type = "text/html") := by
      rintro (hc | hc | hc) <;> rw [hc] at hpre <;> exact absurd hpre (by decide)
    simp only [Parse, hh]
    rw [if_neg hmode, if_neg h1, if_pos hpre, hbound]
    cases b <;> rfl
  · intro dc p ci b rest em hskip hdisp hpre hbound
    have h1 : ci.type ≠ "text/plain" := by
      intro hc; rw [hc] at hpre; exact absurd hpre (by decide)
    have h2 : ci.type ≠ "text/enriched" := by
      intro hc; rw [hc] at hpre; exact absurd hpre (by decide)
    have h3 : ci.type ≠ "text/html" := by
      intro hc; rw [hc] at hpre; exact absurd hpre (by decide)
    simp only [parsePartList, hskip, Bool.false_eq_true, if_false]
    rw [if_neg hdisp, if_neg h1, if_neg h2, if_neg h3]
    simp only [hpre, if_true, hbound]
    cases b <;> rfl

/-- Witness for C6: a multipart/mixed part with no boundary parameter at
the root and nested under a wellformed root each produce the fatal
framing error. -/
theorem c6_missing_boundary_is_fatal_witness :
    Parse dcId dhOk (mkParser .wholeEmail [])
      ⟨[], mixedNoBoundaryCI, .data "body"⟩ =
      .error (.wrap "cannot read part"
        (.custom "multipart: boundary is empty")) ∧
    parsePartList dcId (mkParser .wholeEmail [])
      (.cons mixedNoBoundaryCI (.data "body") .nil) Email.empty =
      .error (.wrap "cannot parse nested part"
        (.wrap "cannot read part"
          (.custom "multipart: boundary is empty"))) :=
  ⟨c6_missing_boundary_is_fatal.1 dcId dhOk (mkParser .wholeEmail []) []
      mixedNoBoundaryCI (.data "body")
      { Headers.empty with contentInfo := mixedNoBoundaryCI } rfl
      (by decide) rfl rfl,
    c6_missing_boundary_is_fatal.2 dcId (mkParser .wholeEmail [])
      mixedNoBoundaryCI (.data "body") .nil Email.empty rfl
      (by decide) rfl rfl⟩

/-- C7: a multipart child part whose content type matches none of the
parsePart branches — not skip-listed, not attachment disposition, none of
the three text types, not a multipart prefix, not classified as an inline
or attached file, and not the allow-listed text/calendar — aborts the
parse with the UnknownContentTypeError carrying that type, whose message
contains the exact content type string. -/
theorem c7_unknown_content_type_error
    (dc : ContentInfo → String → Except Err String) (p : Parser)
    (ci : ContentInfo) (b : Body) (rest : PartsSeq) (em : Email)
    (hskip : p.inSkipContentTypes ci.type = false)
    (hdisp : ci.disposition ≠ "attachment")
    (h1 : ci.type ≠ "text/plain") (h2 : ci.type ≠ "text/enriched")
    (h3 : ci.type ≠ "text/html")
    (hmp : hasPrefixStr ci.type "multipart" = false)
    (hinl : ci.IsInlineFile = false) (hatt : ci.IsAttachedFile = false)
    (hcal : ci.type ≠ "text/calendar") :
    parsePartList dc p (.cons ci b rest) em =
      .error (.unknownContentType ci.type) ∧
    ∃ pre post,
      (Err.unknownContentType ci.type).message = pre ++ ci.type ++ post := by
  constructor
  · simp only [parsePartList, hskip, Bool.false_eq_true, if_false]
    rw [if_neg hdisp, if_neg h1, if_neg h2, if_neg h3]
    simp only [hmp, Bool.false_eq_true, if_false, hinl, hatt]
    rw [if_neg hcal]
  · refine ⟨"unknown Content-Type " ++ "\"", "\"", ?_⟩
    show "unknown Content-Type " ++ ("\"" ++ ci.type ++ "\"") =
      ("unknown Content-Type " ++ "\"") ++ ci.type ++ "\""
    rw [← String.append_assoc, ← String.append_assoc]

/-- C2: with processing mode headersOnly, Parse returns right after header
parsing: the output carries the parsed header record and empty text,
enriched text, html and files, whatever the body holds — the decode
pipeline `dc` and the body `b` are arbitrary and absent from the result,
so the body pipeline is never invoked. -/
theorem c2_headers_only_skips_body
    (dc : ContentInfo → String → Except Err String)
    (dh : String → Except Err String) (p : Parser) (hm : HeaderMap)
    (ci : ContentInfo) (b : Body) (h : Headers)
    (hmode : p.processType = .headersOnly)
    (hh : parseHeaders dh p hm ci = .ok h) :
    Parse dc dh p ⟨hm, ci, b⟩ = .ok { Email.empty with headers := h } := by
  simp only [Parse, hh]
  rw [if_pos hmode]

/-- Witness for C2: a headersOnly parse of a multipart message with a
subject and an extra header returns the populated record and empty body
fields, even under an always-failing decode pipeline. -/
theorem c2_headers_only_skips_body_witness :
    Parse dcFail dhOk (mkParser .headersOnly [])
      ⟨[("Subject", ["Hi"]), ("X-Thing", ["v"])], mixedRootCI,
        .parts (.cons plainCI (.data "ignored") .nil)⟩ =
      .ok { Email.empty with
            headers :=
              { Headers.empty with
                  subject := "Hi",
                  extraHeaders := [("X-Thing", ["v"])],
                  contentInfo := mixedRootCI } } :=
  c2_headers_only_skips_body dcFail dhOk (mkParser .headersOnly [])
    [("Subject", ["Hi"]), ("X-Thing", ["v"])] mixedRootCI
    (.parts (.cons plainCI (.data "ignored") .nil))
    { Headers.empty with
        subject := "Hi",
        extraHeaders := [("X-Thing", ["v"])], contentInfo := mixedRootCI }
    rfl rfl

/-- C4: a message whose root content type is exactly text/plain parses to
an email whose text equals the decoded body with CRLF normalised to LF
and outer whitespace trimmed, and whose enriched text and html are empty
(they stay at the empty accumulator values). -/
theorem c4_text_plain_root_body
    (dc : ContentInfo → String → Except Err String)
    (dh : String → Except Err String) (p : Parser) (hm : HeaderMap)
    (ci : ContentInfo) (s : String) (h : Headers) (t : String)
    (htype : ci.type = "text/plain")
    (hmode : p.processType ≠ .headersOnly)
    (hh : parseHeaders dh p hm ci = .ok h)
    (hdec : dc ci s = .ok t) :
    Parse dc dh p ⟨hm, ci, .data s⟩ =
      .ok { Email.empty with
            headers := h,
            text := trimSpace (crlfToLf t) } := by
  simp only [Parse, hh]
  rw [if_neg hmode, if_pos (Or.inl htype)]
  simp only [Body.rawData, parseBody]
  rw [if_pos htype]
  simp only [parseText, hdec]

/-- Witness for C4: an identity-decoded plain text root with CRLF line
endings and surrounding whitespace. -/
theorem c4_text_plain_root_body_witness :
    Parse dcId dhOk (mkParser .wholeEmail [])
      ⟨[], plainCI, .data "  Hello\r\nWorld \n"⟩ =
      .ok { Email.empty with
            headers := { Headers.empty with contentInfo := plainCI },
            text := "Hello\nWorld" } := by
  have h := c4_text_plain_root_body dcId dhOk (mkParser .wholeEmail []) []
    plainCI "  Hello\r\nWorld \n"
    { Headers.empty with contentInfo := plainCI } "  Hello\r\nWorld \n"
    rfl (by decide) rfl rfl
  exact h.trans (by rfl)

/-- C1 (code bug evaluation): with processing mode noAttachments, a
multipart message whose single part carries attachment disposition still
produces a Files entry — the disposition branch of parsePart calls
parseFile without consulting the processing mode, unlike the two gated
classifier branches below it. -/
theorem c1_attachment_disposition_ignores_noAttachments :
    (mkParser .noAttachments []).processType = .noAttachments ∧
    Parse dcId dhOk (mkParser .noAttachments [])
      ⟨[], mixedRootCI, .parts (.cons attachPdfCI (.data "pdfdata") .nil)⟩ =
      .ok { Email.empty with
            headers := { Headers.empty with contentInfo := mixedRootCI },
            files := [{ fileType := "attachment", name := "attached.pdf",
                        contentInfo := attachPdfCI, data := "pdfdata" }] } :=
  ⟨rfl, rfl⟩

/-- C10: the skip-list is never consulted at the message root.  First
three conjuncts: a root of each of the three text types whose type is in
the skip-list is still decoded into the matching text field (text,
enriched text, html).  Fourth conjunct: any other non-multipart root in
the skip-list is still handed to parseFile as a single top-level
attachment. -/
theorem c10_skip_list_not_consulted_at_root :
    (∀ (dc : ContentInfo → String → Except Err String)
       (dh : String → Except Err String) (p : Parser) (hm : HeaderMap)
       (ci : ContentInfo) (s : String) (h : Headers) (t : String),
      p.inSkipContentTypes ci.type = true →
      ci.type = "text/plain" →
      p.processType ≠ .headersOnly →
      parseHeaders dh p hm ci = .ok h →
      dc ci s = .ok t →
      Parse dc dh p ⟨hm, ci, .data s⟩ =
        .ok { Email.empty with
                headers := h,
                text := trimSpace (crlfToLf t) }) ∧
    (∀ (dc : ContentInfo → String → Except Err String)
       (dh : String → Except Err String) (p : Parser) (hm : HeaderMap)
       (ci : ContentInfo) (s : String) (h : Headers) (t : String),
      p.inSkipContentTypes ci.type = true →
      ci.type = "text/enriched" →
      p.processType ≠ .headersOnly →
      parseHeaders dh p hm ci = .ok h →
      dc ci s = .ok t →
      Parse dc dh p ⟨hm, ci, .data s⟩ =
        .ok { Email.empty with
                headers := h,
                enrichedText := trimSpace (crlfToLf t) }) ∧
    (∀ (dc : ContentInfo → String → Except Err String)
       (dh : String → Except Err String) (p : Parser) (hm : HeaderMap)
       (ci : ContentInfo) (s : String) (h : Headers) (t : String),
      p.inSkipContentTypes ci.type = true →
      ci.type = "text/html" →
      p.processType ≠ .headersOnly →
      parseHeaders dh p hm ci = .ok h →
      dc ci s = .ok t →
      Parse dc dh p ⟨hm, ci, .data s⟩ =
        .ok { Email.empty with
                headers := h,
                html := trimSpace (crlfToLf t) }) ∧
    (∀ (dc : ContentInfo → String → Except Err String)
       (dh : String → Except Err String) (p : Parser) (hm : HeaderMap)
       (ci : ContentInfo) (s : String) (h : Headers),
      p.inSkipContentTypes ci.type = true →
      ci.type ≠ "text/plain" → ci.type ≠ "text/enriched" →
      ci.type ≠ "text/html" →
      hasPrefixStr ci.type "multipart/" = false →
      p.processType ≠ .headersOnly →
      parseHeaders dh p hm ci = .ok h →
      Parse dc dh p ⟨hm, ci, .data s⟩ =
        parseFile dc p ci s { Email.empty with headers := h }) := by
  refine ⟨?_, ?_, ?_, ?_⟩
  · intro dc dh p hm ci s h t _hskip htype hmode hh hdec
    simp only [Parse, hh]
    rw [if_neg hmode, if_pos (Or.inl htype)]
    simp only [Body.rawData, parseBody]
    rw [if_pos htype]
    simp only [parseText, hdec]
  · intro dc dh p hm ci s h t _hskip htype hmode hh hdec
    have h1 : ci.type ≠ "text/plain" := by rw [htype]; decide
    simp only [Parse, hh]
    rw [if_neg hmode, if_pos (Or.inr (Or.inl htype))]
    simp only [Body.rawData, parseBody]
    rw [if_neg h1, if_pos htype]
    simp only [parseText, hdec]
  · intro dc dh p hm ci s h t _hskip htype hmode hh hdec
    have h1 : ci.type ≠ "text/plain" := by rw [htype]; decide
    have h2 : ci.type ≠ "text/enriched" := by rw [htype]; decide
    simp only [Parse, hh]
    rw [if_neg hmode, if_pos (Or.inr (Or.inr htype))]
    simp only [Body.rawData, parseBody]
    rw [if_neg h1, if_neg h2, if_pos htype]
    simp only [parseText, hdec]
  · intro dc dh p hm ci s h _hskip h1 h2 h3 hmp hmode hh
    have hor : ¬ (ci.type = "text/plain" ∨ ci.type = "text/enriched" ∨
        ci.type = "text/html") := by
      rintro (hc | hc | hc) <;> [exact h1 hc; exact h2 hc; exact h3 hc]
    simp only [Parse, hh]
    rw [if_neg hmode, if_neg hor]
    simp only [hmp, Bool.false_eq_true, if_false, Body.rawData]

/-- Witness for C10: skip-listed text/plain, text/enriched and text/html
roots are each still decoded into the matching field; an application/pdf
root skip-listed by type still produces a file entry. -/
theorem c10_skip_list_not_consulted_at_root_witness :
    Parse dcId dhOk (mkParser .wholeEmail ["text/plain"])
      ⟨[], plainCI, .data "kept"⟩ =
      .ok { Email.empty with
            headers := { Headers.empty with contentInfo := plainCI },
            text := "kept" } ∧
    Parse dcId dhOk (mkParser .wholeEmail ["text/enriched"])
      ⟨[], { plainCI with type := "text/enriched" }, .data " <b>kept</b> "⟩ =
      .ok { Email.empty with
            headers := { Headers.empty with
              contentInfo := { plainCI with type := "text/enriched" } },
            enrichedText := "<b>kept</b>" } ∧
    Parse dcId dhOk (mkParser .wholeEmail ["text/html"])
      ⟨[], { plainCI with type := "text/html" }, .data " <p>kept</p> "⟩ =
      .ok { Email.empty with
            headers := { Headers.empty with
              contentInfo := { plainCI with type := "text/html" } },
            html := "<p>kept</p>" } ∧
    Parse dcId dhOk (mkParser .wholeEmail ["application/pdf"])
      ⟨[], attachPdfCI, .data "pdfdata"⟩ =
      .ok { Email.empty with
            headers := { Headers.empty with contentInfo := attachPdfCI },
            files := [{ fileType := "attachment", name := "attached.pdf",
                        contentInfo := attachPdfCI, data := "pdfdata" }] } :=
  ⟨(c10_skip_list_not_consulted_at_root.1 dcId dhOk
      (mkParser .wholeEmail ["text/plain"]) [] plainCI "kept"
      { Headers.empty with contentInfo := plainCI } "kept"
      rfl rfl (by decide) rfl rfl).trans (by rfl),
    (c10_skip_list_not_consulted_at_root.2.1 dcId dhOk
      (mkParser .wholeEmail ["text/enriched"]) []
      { plainCI with type := "text/enriched" } " <b>kept</b> "
      { Headers.empty with
          contentInfo := { plainCI with type := "text/enriched" } }
      " <b>kept</b> " rfl rfl (by decide) rfl rfl).trans (by rfl),
    (c10_skip_list_not_consulted_at_root.2.2.1 dcId dhOk
      (mkParser .wholeEmail ["text/html"]) []
      { plainCI with type := "text/html" } " <p>kept</p> "
      { Headers.empty with
          contentInfo := { plainCI with type := "text/html" } }
      " <p>kept</p> " rfl rfl (by decide) rfl rfl).trans (by rfl),
    (c10_skip_list_not_consulted_at_root.2.2.2 dcId dhOk
      (mkParser .wholeEmail ["application/pdf"]) [] attachPdfCI "pdfdata"
      { Headers.empty with contentInfo := attachPdfCI }
      rfl (by decide) (by decide) (by decide) rfl (by decide) rfl).trans
      (by rfl)⟩

/-- Witness for C7: an unhandled text/csv part (text prefix, so neither
inline nor attached by the classifier) yields the unknown content type
error, and the message contains "text/csv". -/
theorem c7_unknown_content_type_error_witness :
    parsePartList dcId (mkParser .wholeEmail [])
      (.cons { plainCI with type := "text/csv" } (.data "a,b") .nil)
      Email.empty = .error (.unknownContentType "text/csv") ∧
    ∃ pre post,
      (Err.unknownContentType "text/csv").message = pre ++ "text/csv" ++ post :=
  c7_unknown_content_type_error dcId (mkParser .wholeEmail [])
    { plainCI with type := "text/csv" } (.data "a,b") .nil Email.empty
    rfl (by decide) (by decide) (by decide) (by decide) rfl rfl rfl (by decide)

/-- Inversion of Except bind: a bound computation yields ok exactly when
both stages do. -/
theorem exceptBind_ok_iff {α β : Type} (x : Except Err α)
    (f : α → Except Err β) (b : β) :
    (x >>= f) = .ok b ↔ ∃ a, x = .ok a ∧ f a = .ok b := by
  cases x <;> simp [Bind.bind, Except.bind]

/-- The address-list field pattern on a non-sentinel error wraps it with
the field context. -/
theorem addrsField_error (field raw : String) {e : Err}
    (he : e ≠ .emptyAddress) :
    addrsField field raw (.error e) =
      .error (.wrap (field ++ " header: (" ++ raw ++ ")") e) := by
  cases e
  case emptyAddress => exact absurd rfl he
  all_goals rfl

/-- C8: the From field of parseHeaders.  First conjunct: an empty From
value takes the sentinel path and the field step yields the absent value
(no error).  Second conjunct: whenever parseHeaders succeeds on a message
with an empty From value the recorded From field is absent.  Third
conjunct: a non-empty From value whose decoded form makes the injected
address-list function fail propagates that error wrapped with the field
context (the preceding Sender field being absent). -/
theorem c8_from_empty_absent_error_propagated :
    (∀ (dh : String → Except Err String) (p : Parser),
      addrsField "From" "" (parseAddresses dh p "") = .ok []) ∧
    (∀ (dh : String → Except Err String) (p : Parser) (hm : HeaderMap)
       (ci : ContentInfo) (h : Headers),
      getH hm "From" = "" →
      parseHeaders dh p hm ci = .ok h →
      h.fromAddresses = []) ∧
    (∀ (dh : String → Except Err String) (p : Parser) (hm : HeaderMap)
       (ci : ContentInfo) (v d : String) (e : Err),
      getH hm "Sender" = "" →
      getH hm "From" = v → v ≠ "" →
      dh v = .ok d →
      p.addressesFunc d = .error e →
      e ≠ .emptyAddress →
      parseHeaders dh p hm ci =
        .error (.wrap ("From header: (" ++ v ++ ")") e)) := by
  refine ⟨fun dh p => rfl, ?_, ?_⟩
  · intro dh p hm ci h hFrom hh
    simp only [parseHeaders, exceptBind_ok_iff] at hh
    obtain ⟨sender, -, fromA, hFA, replyTo, -, toA, -, cc, -, bcc, -,
      resentFrom, -, resentSender, -, resentTo, -, resentCc, -, resentBcc,
      -, date, -, resentDate, -, subject, -, comments, -, hfin⟩ := hh
    rw [hFrom] at hFA
    have h0 : addrsField "From" "" (parseAddresses dh p "") = .ok [] := rfl
    rw [h0] at hFA
    injection hFA with hFA
    injection hfin with hfin
    subst hfin
    exact hFA.symm
  · intro dh p hm ci v d e hS hF hv hdh haf he
    have h2 : parseAddresses dh p v = .error e := by
      simp only [parseAddresses]
      rw [if_neg hv, hdh]
      exact haf
    simp only [parseHeaders, hS, hF, h2, addrsField_error "From" v he]
    rfl

/-- Unfolding lemma: the text/enriched branch of parsePart concatenates
with no separator. -/
theorem parsePartList_enriched {dc : ContentInfo → String → Except Err String}
    {p : Parser} {ci : ContentInfo} {b : Body} {rest : PartsSeq}
    {em : Email} {t : String}
    (hskip : p.inSkipContentTypes ci.type = false)
    (hdisp : ci.disposition ≠ "attachment")
    (htype : ci.type = "text/enriched")
    (hdec : dc ci b.rawData = .ok t) :
    parsePartList dc p (.cons ci b rest) em =
      parsePartList dc p rest
        { em with enrichedText := em.enrichedText ++ trimSpace (crlfToLf t) } := by
  have h1 : ci.type ≠ "text/plain" := by rw [htype]; decide
  simp only [parsePartList, hskip, Bool.false_eq_true, if_false]
  rw [if_neg hdisp, if_neg h1, if_pos htype]
  simp only [parseText, hdec]

/-- Unfolding lemma: the text/html branch of parsePart concatenates with
no separator. -/
theorem parsePartList_html {dc : ContentInfo → String → Except Err String}
    {p : Parser} {ci : ContentInfo} {b : Body} {rest : PartsSeq}
    {em : Email} {t : String}
    (hskip : p.inSkipContentTypes ci.type = false)
    (hdisp : ci.disposition ≠ "attachment")
    (htype : ci.type = "text/html")
    (hdec : dc ci b.rawData = .ok t) :
    parsePartList dc p (.cons ci b rest) em =
      parsePartList dc p rest
        { em with html := em.html ++ trimSpace (crlfToLf t) } := by
  have h1 : ci.type ≠ "text/plain" := by rw [htype]; decide
  have h2 : ci.type ≠ "text/enriched" := by rw [htype]; decide
  simp only [parsePartList, hskip, Bool.false_eq_true, if_false]
  rw [if_neg hdisp, if_neg h1, if_neg h2, if_pos htype]
  simp only [parseText, hdec]

/-- Accumulation of a run of sibling text/plain parts: the text field
folds with the separator-when-nonempty step. -/
theorem textAccum_fold {dc : ContentInfo → String → Except Err String}
    {p : Parser} {ci : ContentInfo}
    (hskip : p.inSkipContentTypes ci.type = false)
    (hdisp : ci.disposition ≠ "attachment")
    (htype : ci.type = "text/plain") :
    ∀ l : List (String × String), (∀ pr ∈ l, dc ci pr.1 = .ok pr.2) →
      ∀ em : Email,
        parsePartList dc p
          (PartsSeq.ofList (l.map fun pr => (ci, Body.data pr.1))) em =
        .ok { em with
              text :=
                l.foldl
                  (fun acc pr => textAccumStep acc (trimSpace (crlfToLf pr.2)))
                  em.text } := by
  intro l
  induction l with
  | nil => intro _ em; rfl
  | cons pr rest ih =>
    intro hdec em
    simp only [List.map, PartsSeq.ofList]
    rw [parsePartList_plain hskip hdisp htype
      (hdec pr (List.mem_cons_self pr rest))]
    rw [ih (fun q hq => hdec q (List.mem_cons_of_mem pr hq)) _]
    rfl

/-- Accumulation of a run of sibling text/enriched parts: plain
concatenation. -/
theorem enrichedAccum_fold {dc : ContentInfo → String → Except Err String}
    {p : Parser} {ci : ContentInfo}
    (hskip : p.inSkipContentTypes ci.type = false)
    (hdisp : ci.disposition ≠ "attachment")
    (htype : ci.type = "text/enriched") :
    ∀ l : List (String × String), (∀ pr ∈ l, dc ci pr.1 = .ok pr.2) →
      ∀ em : Email,
        parsePartList dc p
          (PartsSeq.ofList (l.map fun pr => (ci, Body.data pr.1))) em =
        .ok { em with
              enrichedText :=
                l.foldl (fun acc pr => acc ++ trimSpace (crlfToLf pr.2))
                  em.enrichedText } := by
  intro l
  induction l with
  | nil => intro _ em; rfl
  | cons pr rest ih =>
    intro hdec em
    simp only [List.map, PartsSeq.ofList]
    rw [parsePartList_enriched hskip hdisp htype
      (hdec pr (List.mem_cons_self pr rest))]
    rw [ih (fun q hq => hdec q (List.mem_cons_of_mem pr hq)) _]
    rfl

/-- Accumulation of a run of sibling text/html parts: plain
concatenation. -/
theorem htmlAccum_fold {dc : ContentInfo → String → Except Err String}
    {p : Parser} {ci : ContentInfo}
    (hskip : p.inSkipContentTypes ci.type = false)
    (hdisp : ci.disposition ≠ "attachment")
    (htype : ci.type = "text/html") :
    ∀ l : List (String × String), (∀ pr ∈ l, dc ci pr.1 = .ok pr.2) →
      ∀ em : Email,
        parsePartList dc p
          (PartsSeq.ofList (l.map fun pr => (ci, Body.data pr.1))) em =
        .ok { em with
              html :=
                l.foldl (fun acc pr => acc ++ trimSpace (crlfToLf pr.2))
                  em.html } := by
  intro l
  induction l with
  | nil => intro _ em; rfl
  | cons pr rest ih =>
    intro hdec em
    simp only [List.map, PartsSeq.ofList]
    rw [parsePartList_html hskip hdisp htype
      (hdec pr (List.mem_cons_self pr rest))]
    rw [ih (fun q hq => hdec q (List.mem_cons_of_mem pr hq)) _]
    rfl

/-- Folding the separator step from a nonempty accumulator is the
blank-line join with the accumulator in front. -/
theorem foldl_textAccumStep (ts : List String) :
    ∀ a : String, 0 < a.length →
      ts.foldl textAccumStep a = joinBlank (a :: ts) := by
  induction ts with
  | nil => intro a _; rfl
  | cons t ts ih =>
    intro a ha
    have hstep : textAccumStep a t = a ++ "\n\n" ++ t := by
      simp only [textAccumStep]
      rw [if_pos ha]
    have ha2 : 0 < (textAccumStep a t).length := by
      rw [hstep, String.length_append, String.length_append]
      omega
    calc (t :: ts).foldl textAccumStep a
        = ts.foldl textAccumStep (textAccumStep a t) := rfl
      _ = joinBlank (textAccumStep a t :: ts) := ih _ ha2
      _ = joinBlank (a :: t :: ts) := by
          rw [hstep]
          cases ts with
          | nil => simp [joinBlank]
          | cons u us => simp [joinBlank, String.append_assoc]

/-- Folding append over a list equals appending the join. -/
theorem foldl_append_join (ts : List String) :
    ∀ a : String, ts.foldl (fun r s => r ++ s) a = a ++ String.join ts := by
  induction ts with
  | nil => intro a; exact (String.append_empty a).symm
  | cons t ts ih =>
    intro a
    calc (t :: ts).foldl (fun r s => r ++ s) a
        = ts.foldl (fun r s => r ++ s) (a ++ t) := rfl
      _ = (a ++ t) ++ String.join ts := ih _
      _ = a ++ String.join (t :: ts) := by
          rw [String.append_assoc]
          congr 1
          rw [show String.join (t :: ts) =
            ts.foldl (fun r s => r ++ s) ("" ++ t) from rfl]
          rw [ih ("" ++ t), String.empty_append]

/-- Counterexample for C3 as stated: two sibling text/plain parts whose
first decodes (after trimming) to the empty string.  The parser emits
"hello", but the blank-line join of the decoded texts is "\n\nhello" —
the separator is only inserted when text has already accumulated. -/
theorem c3_blank_line_join_cex :
    parseText dcId plainCI " " = .ok "" ∧
    parseText dcId plainCI "hello" = .ok "hello" ∧
    Parse dcId dhOk (mkParser .wholeEmail [])
      ⟨[], mixedRootCI,
        .parts (.cons plainCI (.data " ")
          (.cons plainCI (.data "hello") .nil))⟩ =
      .ok { Email.empty with
            headers := { Headers.empty with contentInfo := mixedRootCI },
            text := "hello" } ∧
    joinBlank ["", "hello"] ≠ "hello" :=
  ⟨rfl, rfl, rfl, by decide⟩

/-- C3 amended: for sibling text/plain parts the text field is the decoded
texts combined with the separator-when-nonempty rule, which equals the
blank-line join whenever the first part's decoded text is nonempty (first
conjunct); decoded text/enriched and text/html sibling parts are
concatenated into their fields with no separator (second and third
conjuncts). -/
theorem c3_sibling_text_parts_accumulation :
    (∀ (dc : ContentInfo → String → Except Err String) (p : Parser)
       (ci : ContentInfo) (pr0 : String × String)
       (l : List (String × String)) (em : Email),
      p.inSkipContentTypes ci.type = false →
      ci.disposition ≠ "attachment" →
      ci.type = "text/plain" →
      (∀ pr ∈ pr0 :: l, dc ci pr.1 = .ok pr.2) →
      em.text = "" →
      0 < (trimSpace (crlfToLf pr0.2)).length →
      parsePartList dc p
        (PartsSeq.ofList ((pr0 :: l).map fun pr => (ci, Body.data pr.1)))
        em =
      .ok { em with
            text :=
              joinBlank ((pr0 :: l).map fun pr => trimSpace (crlfToLf pr.2))
          }) ∧
    (∀ (dc : ContentInfo → String → Except Err String) (p : Parser)
       (ci : ContentInfo) (l : List (String × String)) (em : Email),
      p.inSkipContentTypes ci.type = false →
      ci.disposition ≠ "attachment" →
      ci.type = "text/enriched" →
      (∀ pr ∈ l, dc ci pr.1 = .ok pr.2) →
      parsePartList dc p
        (PartsSeq.ofList (l.map fun pr => (ci, Body.data pr.1))) em =
      .ok { em with
            enrichedText :=
              em.enrichedText ++
                String.join (l.map fun pr => trimSpace (crlfToLf pr.2))
          }) ∧
    (∀ (dc : ContentInfo → String → Except Err String) (p : Parser)
       (ci : ContentInfo) (l : List (String × String)) (em : Email),
      p.inSkipContentTypes ci.type = false →
      ci.disposition ≠ "attachment" →
      ci.type = "text/html" →
      (∀ pr ∈ l, dc ci pr.1 = .ok pr.2) →
      parsePartList dc p
        (PartsSeq.ofList (l.map fun pr => (ci, Body.data pr.1))) em =
      .ok { em with
            html :=
              em.html ++
                String.join (l.map fun pr => trimSpace (crlfToLf pr.2))
          }) := by
  refine ⟨?_, ?_, ?_⟩
  · intro dc p ci pr0 l em hskip hdisp htype hdec hem h0
    rw [textAccum_fold hskip hdisp htype (pr0 :: l) hdec em, hem]
    have hmap : ∀ (l2 : List (String × String)) (a : String),
        l2.foldl (fun acc pr => textAccumStep acc (trimSpace (crlfToLf pr.2)))
          a =
        (l2.map fun pr => trimSpace (crlfToLf pr.2)).foldl textAccumStep a :=
      fun l2 a => (List.foldl_map _ _ _ _).symm
    rw [hmap]
    have hstep0 : textAccumStep "" (trimSpace (crlfToLf pr0.2)) =
        trimSpace (crlfToLf pr0.2) := by
      simp only [textAccumStep]
      rw [if_neg (by decide), String.empty_append]
    have hfold : ((pr0 :: l).map fun pr => trimSpace (crlfToLf pr.2)).foldl
          textAccumStep "" =
        joinBlank ((pr0 :: l).map fun pr => trimSpace (crlfToLf pr.2)) :=
      calc ((pr0 :: l).map fun pr => trimSpace (crlfToLf pr.2)).foldl
            textAccumStep ""
          = (l.map fun pr => trimSpace (crlfToLf pr.2)).foldl textAccumStep
              (textAccumStep "" (trimSpace (crlfToLf pr0.2))) := rfl
        _ = (l.map fun pr => trimSpace (crlfToLf pr.2)).foldl textAccumStep
              (trimSpace (crlfToLf pr0.2)) := by rw [hstep0]
        _ = joinBlank (trimSpace (crlfToLf pr0.2) ::
              (l.map fun pr => trimSpace (crlfToLf pr.2))) :=
            foldl_textAccumStep _ _ h0
        _ = joinBlank ((pr0 :: l).map fun pr => trimSpace (crlfToLf pr.2)) :=
            rfl
    rw [hfold]
  · intro dc p ci l em hskip hdisp htype hdec
    rw [enrichedAccum_fold hskip hdisp htype l hdec em]
    have hmap : l.foldl (fun acc pr => acc ++ trimSpace (crlfToLf pr.2))
        em.enrichedText =
        (l.map fun pr => trimSpace (crlfToLf pr.2)).foldl
          (fun r s => r ++ s) em.enrichedText :=
      (List.foldl_map _ _ _ _).symm
    rw [hmap, foldl_append_join]
  · intro dc p ci l em hskip hdisp htype hdec
    rw [htmlAccum_fold hskip hdisp htype l hdec em]
    have hmap : l.foldl (fun acc pr => acc ++ trimSpace (crlfToLf pr.2))
        em.html =
        (l.map fun pr => trimSpace (crlfToLf pr.2)).foldl
          (fun r s => r ++ s) em.html :=
      (List.foldl_map _ _ _ _).symm
    rw [hmap, foldl_append_join]

/-- Witness for C3 (amended claim): three text/plain parts, the last
decoding to empty, joined with blank lines; two enriched parts and two
html parts concatenated without separator. -/
theorem c3_sibling_text_parts_accumulation_witness :
    parsePartList dcId (mkParser .wholeEmail [])
      (PartsSeq.ofList ([("one", "one"), (" two \r\n", " two \r\n"),
        (" ", " ")].map fun pr => (plainCI, Body.data pr.1)))
      Email.empty =
      .ok { Email.empty with text := "one\n\ntwo\n\n" } ∧
    parsePartList dcId (mkParser .wholeEmail [])
      (PartsSeq.ofList ([("<b>a</b>", "<b>a</b>"), ("<i>b</i>", "<i>b</i>")
        ].map fun pr => ({ plainCI with type := "text/enriched" },
          Body.data pr.1)))
      Email.empty =
      .ok { Email.empty with enrichedText := "<b>a</b><i>b</i>" } ∧
    parsePartList dcId (mkParser .wholeEmail [])
      (PartsSeq.ofList ([("<p>a</p>", "<p>a</p>"), ("<p>b</p>", "<p>b</p>")
        ].map fun pr => ({ plainCI with type := "text/html" },
          Body.data pr.1)))
      Email.empty =
      .ok { Email.empty with html := "<p>a</p><p>b</p>" } :=
  ⟨(c3_sibling_text_parts_accumulation.1 dcId (mkParser .wholeEmail [])
      plainCI ("one", "one") [(" two \r\n", " two \r\n"), (" ", " ")]
      Email.empty rfl (by decide) rfl (by decide) rfl (by decide)).trans
      (by rfl),
    (c3_sibling_text_parts_accumulation.2.1 dcId (mkParser .wholeEmail [])
      { plainCI with type := "text/enriched" }
      [("<b>a</b>", "<b>a</b>"), ("<i>b</i>", "<i>b</i>")] Email.empty
      rfl (by decide) rfl (by decide)).trans (by rfl),
    (c3_sibling_text_parts_accumulation.2.2 dcId (mkParser .wholeEmail [])
      { plainCI with type := "text/html" }
      [("<p>a</p>", "<p>a</p>"), ("<p>b</p>", "<p>b</p>")] Email.empty
      rfl (by decide) rfl (by decide)).trans (by rfl)⟩

/-- A header mapping with no explicit keys never resolves an explicit
key. -/
theorem lookup_none_of_no_explicit (k : String)
    (hk : isExplicitHeader k = true) :
    ∀ hm : HeaderMap, (∀ kv ∈ hm, isExplicitHeader kv.1 = false) →
      hm.lookup k = none := by
  intro hm
  induction hm with
  | nil => intro _; rfl
  | cons kv rest ih =>
    obtain ⟨k1, v1⟩ := kv
    intro hall
    have hkv : isExplicitHeader k1 = false :=
      hall (k1, v1) (List.mem_cons_self (k1, v1) rest)
    have hne : (k == k1) = false := by
      cases hbe : (k == k1) with
      | false => rfl
      | true =>
        have heq : k = k1 := by simpa using hbe
        rw [← heq] at hkv
        rw [hk] at hkv
        cases hkv
    simp only [List.lookup, hne]
    exact ih (fun kv2 hmem => hall kv2 (List.mem_cons_of_mem (k1, v1) hmem))

/-- On a mapping with no explicit keys, `get` of an explicit key is
empty. -/
theorem getH_empty_of_no_explicit {hm : HeaderMap} (k : String)
    (hk : isExplicitHeader k = true)
    (hall : ∀ kv ∈ hm, isExplicitHeader kv.1 = false) :
    getH hm k = "" := by
  unfold getH
  rw [lookup_none_of_no_explicit k hk hm hall]

/-- On a mapping with no explicit keys, the full value list of an explicit
key is empty. -/
theorem getAllH_empty_of_no_explicit {hm : HeaderMap} (k : String)
    (hk : isExplicitHeader k = true)
    (hall : ∀ kv ∈ hm, isExplicitHeader kv.1 = false) :
    getAllH hm k = [] := by
  unfold getAllH
  rw [lookup_none_of_no_explicit k hk hm hall]

/-- C9 amended: a failure to decode the value of a non-explicit (extra)
header never surfaces from parseHeaders — on a message whose headers are
all non-explicit, parseHeaders succeeds for every header-word decoder,
recording for each value the decoder's returned string, which is the
empty string on the decoder's error path (`val, _ :=` in the source
discards the error). -/
theorem c9_amended_extra_header_decode_failure_silent
    (dh : String → Except Err String) (p : Parser) (hm : HeaderMap)
    (ci : ContentInfo)
    (hall : ∀ kv ∈ hm, isExplicitHeader kv.1 = false)
    (hdh0 : dh "" = .ok "") :
    parseHeaders dh p hm ci =
      .ok { Headers.empty with
            extraHeaders := extraHeadersOf dh hm,
            contentInfo := ci } := by
  have hget : ∀ k, isExplicitHeader k = true → getH hm k = "" :=
    fun k hk => getH_empty_of_no_explicit k hk hall
  have hgA : getAllH hm "Received" = [] :=
    getAllH_empty_of_no_explicit "Received" rfl hall
  simp only [parseHeaders]
  rw [hget "Sender" rfl, hget "From" rfl, hget "Reply-To" rfl,
    hget "To" rfl, hget "Cc" rfl, hget "Bcc" rfl, hget "Resent-From" rfl,
    hget "Resent-Sender" rfl, hget "Resent-To" rfl, hget "Resent-Cc" rfl,
    hget "Resent-Bcc" rfl, hget "Date" rfl, hget "Resent-Date" rfl,
    hget "Subject" rfl, hget "Comments" rfl, hget "Message-Id" rfl,
    hget "In-Reply-To" rfl, hget "References" rfl, hget "Keywords" rfl,
    hget "Resent-Message-Id" rfl, hgA]
  rw [show getDecodedString dh "" = .ok "" from hdh0]
  rfl

/-- Witness for C9 (amended claim): one extra header with a value the
decoder rejects still parses, the failing value recorded as the empty
string. -/
theorem c9_amended_extra_header_decode_failure_silent_witness :
    parseHeaders (dhFailOn "=?x?=") (mkParser .wholeEmail [])
      [("X-A", ["plain", "=?x?="])] plainCI =
      .ok { Headers.empty with
            extraHeaders := [("X-A", ["plain", ""])],
            contentInfo := plainCI } :=
  (c9_amended_extra_header_decode_failure_silent (dhFailOn "=?x?=")
    (mkParser .wholeEmail []) [("X-A", ["plain", "=?x?="])] plainCI
    (by decide) rfl).trans (by rfl)

/-- Counterexample for C9 as stated: a decode failure on an extra header
value is NOT surfaced — the decoder fails on the value, yet parseHeaders
returns ok, silently recording the empty string. -/
theorem c9_extra_header_decode_failure_not_surfaced_cex :
    dhFailOn "=?x?=" "=?x?=" =
      .error (.custom "cannot decode MIME-word-encoded header") ∧
    parseHeaders (dhFailOn "=?x?=") (mkParser .wholeEmail [])
      [("X-Test", ["=?x?="])] plainCI =
      .ok { Headers.empty with
            extraHeaders := [("X-Test", [""])],
            contentInfo := plainCI } :=
  ⟨rfl, rfl⟩

/-- Witness for C8: empty From gives the absent field without error under
a default-like parser, and a failing injected address-list function on
"bad" propagates the wrapped error. -/
theorem c8_from_empty_absent_error_propagated_witness :
    addrsField "From" "" (parseAddresses dhOk (mkParser .wholeEmail []) "")
      = .ok [] ∧
    ({ Headers.empty with
        toAddresses := [{ name := "", address := "x@example.com" }],
        contentInfo := plainCI } : Headers).fromAddresses = [] ∧
    parseHeaders dhOk pBadAddresses [("From", ["bad"])] plainCI =
      .error (.wrap "From header: (bad)" (.custom "mail: no angle-addr")) :=
  ⟨c8_from_empty_absent_error_propagated.1 dhOk (mkParser .wholeEmail []),
    c8_from_empty_absent_error_propagated.2.1 dhOk (mkParser .wholeEmail [])
      [("To", ["x@example.com"])] plainCI
      { Headers.empty with
          toAddresses := [{ name := "", address := "x@example.com" }],
          contentInfo := plainCI } rfl rfl,
    (c8_from_empty_absent_error_propagated.2.2 dhOk pBadAddresses
      [("From", ["bad"])] plainCI "bad" "bad" (.custom "mail: no angle-addr")
      rfl rfl (by decide) rfl rfl (by decide)).trans (by rfl)⟩

end Letters
